import Mathlib

/-!
Verification of the WBOR RDS encoder (WBOR-91-1-FM/wbor-rds-encoder).

This file gives a shallow embedding, in Lean 4, of the parts of the Python
program that the specification talks about:

* `src/encoder/utils/rt_plus.py` — `build_rt_plus_tag_command`;
* `src/encoder/utils/sanitization.py` — `sanitize_text`;
* `src/encoder/message_handler.py` — the metadata/RT+ portion of `on_message`;
* `src/rds.py` — `SmartGenConnectionManager.send_command` and
  `SmartGenConnectionManager._manage_connection`.

Python strings are modelled as `List Char` (one entry per code point, which
matches Python's indexing and slicing semantics).  The small library of
`py...` helpers below models the Python primitives the source uses
(`str.find`, `str.split`, `str.join`, `str.upper`, slicing, `int(...)`,
`str(...)`, `str.strip`, `str.splitlines`).  Machine integers do not occur:
Python integers are unbounded, so `Nat`/`Int` model them exactly, with `//`
modelled by `Int.fdiv` (Python's floor division).
-/

namespace WborRds

/-- Python strings, one `Char` per code point. -/
abbrev Str := List Char

/-! ## Python string primitives -/

/-- Model of Python `str.upper()` (code-point-wise uppercasing). -/
def pyUpper (s : Str) : Str := s.map Char.toUpper

/-- Model of Python `str.find(sub)`: index of the first occurrence of `sub`
in `s`, or `-1` when `sub` does not occur. -/
def pyFind (s sub : Str) : Int :=
  match (List.range (s.length + 1)).find? (fun i => sub.isPrefixOf (s.drop i)) with
  | some i => Int.ofNat i
  | none => -1

/-- Model of Python `str.split(sep)` for a one-character separator `c`:
`"".split(",") = [""]`, and every occurrence of `c` starts a new field. -/
def splitChar (c : Char) : Str → List Str
  | [] => [[]]
  | x :: xs =>
    match splitChar c xs with
    | [] => []
    | h :: t => if x = c then [] :: h :: t else (x :: h) :: t

/-- Model of Python `sep.join(parts)`. -/
def pyJoin (s : Str) : List Str → Str
  | [] => []
  | [x] => x
  | x :: y :: rest => x ++ s ++ pyJoin s (y :: rest)

/-- Digits of `n`, with enough `fuel` (structural recursion keeps this
kernel-reducible). -/
def natReprAux : Nat → Nat → Str
  | 0, _ => []
  | fuel + 1, n =>
    if n < 10 then [Nat.digitChar n]
    else natReprAux fuel (n / 10) ++ [Nat.digitChar (n % 10)]

/-- Model of Python `str(n)` for a non-negative integer: decimal digits,
no sign, no leading zeros (and `str(0) = "0"`). -/
def natRepr (n : Nat) : Str := natReprAux (n + 1) n

/-- Model of Python `str(i)` for an arbitrary integer. -/
def intRepr (i : Int) : Str :=
  if i < 0 then '-' :: natRepr i.natAbs else natRepr i.toNat

/-- Decimal value of a digit string (helper for `pyInt`). -/
def parseNatDigits (s : Str) : Nat :=
  s.foldl (fun a c => 10 * a + (c.toNat - 48)) 0

/-- Model of Python `int(s)` on well-formed decimal strings (an optional
leading `-` followed by digits), the only shape the program ever parses. -/
def pyInt (s : Str) : Int :=
  if s.headD ' ' = '-' then -(parseNatDigits s.tail : Int) else (parseNatDigits s : Int)

/-- Model of Python `str.strip()` (drop leading and trailing whitespace). -/
def pyStrip (s : Str) : Str :=
  ((s.dropWhile Char.isWhitespace).reverse.dropWhile Char.isWhitespace).reverse

/-- Model of Python `str.splitlines()`: `""` yields `[]`, line boundaries are
`\n`, `\r` and `\r\n`, and a trailing boundary opens no extra line. -/
def pySplitlines : Str → List Str
  | [] => []
  | '\r' :: '\n' :: rest => [] :: pySplitlines rest
  | '\r' :: rest => [] :: pySplitlines rest
  | '\n' :: rest => [] :: pySplitlines rest
  | c :: rest =>
    match pySplitlines rest with
    | [] => [[c]]
    | h :: t => (c :: h) :: t

/-! ## `src/encoder/utils/rt_plus.py` — `build_rt_plus_tag_command`

Embedding of `build_rt_plus_tag_command(full_text, artist, title, duration)`.
The RT+ content-type codes come from `src/encoder/config.py`
(`ARTIST_TAG = "04"`, `TITLE_TAG = "01"`). -/

/-- `ARTIST_TAG = "04"` (config.py). -/
def ARTIST_TAG : Str := ['0', '4']

/-- `TITLE_TAG = "01"` (config.py). -/
def TITLE_TAG : Str := ['0', '1']

/-- The sentinel substituted for a missing artist: `"NO ARTIST"`. -/
def noArtistStr : Str := "NO ARTIST".toList

/-- The sentinel substituted for a missing title: `"NO TITLE"`. -/
def noTitleStr : Str := "NO TITLE".toList

/-- The synthetic second field group `"00,00,00"` appended when only one
tag is produced. -/
def blankPart : Str := "00,00,00".toList

/-- `if not artist: artist = "NO ARTIST"` — Python's falsiness of `""`. -/
def orDefault (s d : Str) : Str := if s = [] then d else s

/-- One field group `f"{tag},{start},{length}"` as appended to
`payload_parts`. -/
def mkPart (tag : Str) (start : Int) (len : Nat) : Str :=
  tag ++ [','] ++ intRepr start ++ [','] ++ natRepr len

/-- The artist block of `build_rt_plus_tag_command`:

    if artist != "NO ARTIST":
        start_artist = full_text.find(artist)
        if start_artist != -1:
            if len(artist) > 63: artist = artist[:63]
            payload_parts.append(f"{ARTIST_TAG},{start_artist},{len(artist)}")

yielding the (zero- or one-element) list of parts it appends. -/
def artistPart (full_text artist : Str) : List Str :=
  if artist ≠ noArtistStr then
    let start_artist := pyFind full_text artist
    if start_artist ≠ -1 then
      let artist := if artist.length > 63 then artist.take 63 else artist
      [mkPart ARTIST_TAG start_artist artist.length]
    else []
  else []

/-- The title block of `build_rt_plus_tag_command` (same shape as
`artistPart`, with `TITLE_TAG` and the `"NO TITLE"` sentinel). -/
def titlePart (full_text title : Str) : List Str :=
  if title ≠ noTitleStr then
    let start_title := pyFind full_text title
    if start_title ≠ -1 then
      let title := if title.length > 63 then title.take 63 else title
      [mkPart TITLE_TAG start_title title.length]
    else []
  else []

/-- `payload_parts` after both append blocks have run. -/
def payloadParts (full_text artist title : Str) : List Str :=
  artistPart full_text artist ++ titlePart full_text title

/-- The final clamp of `build_rt_plus_tag_command`:

    if int(payload_parts[-1].split(",")[2]) > 31:
        payload_parts[-1] = ",".join(payload_parts[-1].split(",")[:2] + ["31"])
-/
def clampLast (parts : List Str) : List Str :=
  if pyInt ((splitChar ',' (parts.getLastD [])).getD 2 []) > 31 then
    parts.dropLast ++
      [pyJoin [','] ((splitChar ',' (parts.getLastD [])).take 2 ++ ["31".toList])]
  else parts

/-- `build_rt_plus_tag_command(full_text, artist, title, duration)`
(rt_plus.py).  `duration // 60` is Python floor division, `Int.fdiv`. -/
def build_rt_plus_tag_command (full_text artist title : Str) (duration : Int) : Str :=
  let artist := orDefault artist noArtistStr
  let title := orDefault title noTitleStr
  let running_bit : Nat := 1
  let timeout : Int := Int.fdiv duration 60
  let payload_parts := payloadParts full_text artist title
  if payload_parts = [] then []
  else if payload_parts.length > 2 then []
  else
    let payload_parts :=
      if payload_parts.length = 1 then payload_parts ++ [blankPart] else payload_parts
    let payload_parts := clampLast payload_parts
    pyJoin [','] (payload_parts ++ [natRepr running_bit, intRepr timeout])

/-- `build_rt_plus_tag_command` with the final 31-clamp removed — the
reference point for stating what the clamp does and does not alter. -/
def build_rt_plus_noclamp (full_text artist title : Str) (duration : Int) : Str :=
  let artist := orDefault artist noArtistStr
  let title := orDefault title noTitleStr
  let running_bit : Nat := 1
  let timeout : Int := Int.fdiv duration 60
  let payload_parts := payloadParts full_text artist title
  if payload_parts = [] then []
  else if payload_parts.length > 2 then []
  else
    let payload_parts :=
      if payload_parts.length = 1 then payload_parts ++ [blankPart] else payload_parts
    pyJoin [','] (payload_parts ++ [natRepr running_bit, intRepr timeout])

/-! ## `src/encoder/utils/sanitization.py` and `src/encoder/message_handler.py` -/

/-- `sanitize_text(raw_text)`: uppercase, then truncate to the SmartGen
`TEXT=` limit of 64 characters. -/
def sanitize_text (raw_text : Str) : Str :=
  let sanitized := pyUpper raw_text
  sanitized.take 64

/-- The `" - "` separator of the `TEXT` value `f"{sanitized_artist} - {sanitized_title}"`. -/
def textSep : Str := " - ".toList

/-- Steps (1)–(2) of `on_message`: sanitize both fields, join them as
`f"{sanitized_artist} - {sanitized_title}"`, and truncate to 64 characters,
recording whether truncation happened (`truncated_text`, `truncated`). -/
def buildDisplayText (artist title : Str) : Str × Bool :=
  let sanitized_artist := sanitize_text artist
  let sanitized_title := sanitize_text title
  let text := sanitized_artist ++ textSep ++ sanitized_title
  let truncated := text.length > 64
  let truncated_text := if truncated then text.take 64 else text
  (truncated_text, truncated)

/-- Steps (1)–(4) of `on_message`, up to the `RT+TAG` value it sends: only
fields that still occur in the truncated text are tagged (`x in s` is
`s.find(x) != -1`), the rest are passed as `""`. -/
def onMessageRtPayload (artist title : Str) (duration : Int) : Str :=
  let sanitized_artist := sanitize_text artist
  let sanitized_title := sanitize_text title
  let truncated_text := (buildDisplayText artist title).1
  let artist_in_truncated := pyFind truncated_text sanitized_artist ≠ -1
  let title_in_truncated := pyFind truncated_text sanitized_title ≠ -1
  let rt_plus_artist := if artist_in_truncated then sanitized_artist else []
  let rt_plus_title := if title_in_truncated then sanitized_title else []
  build_rt_plus_tag_command truncated_text rt_plus_artist rt_plus_title duration

/-! ## `src/rds.py` — `SmartGenConnectionManager.send_command`

The link state is whether `self.sock` is a live socket (`Bool`).  What the
transport does when `sendall`/`recv` run is an input to the model: either the
socket layer raises (`socket.error`) or a reply string comes back.  The
Python exceptions become an explicit error type; `send_command` returns the
outcome together with the new link state. -/

/-- What the transport does during `sendall`/`recv`:  `ioFail` models a
`socket.error`, `reply raw` a received byte string (already decoded). -/
inductive RecvBehavior where
  | ioFail : RecvBehavior
  | reply : Str → RecvBehavior
deriving DecidableEq

/-- The exceptions `send_command` can raise: `ConnectionError` when no
socket is established, `socket.error` propagated from the transport, and
the `RuntimeError` raised when the response's last line is not `"OK"`. -/
inductive SendError where
  | notConnected : SendError
  | socketError : SendError
  | commandRejected : SendError
deriving DecidableEq

/-- `SmartGenConnectionManager.send_command` (rds.py).  Returns the
outcome (`ok` = normal return, `error` = the exception raised) paired with
the link state afterwards (`true` = `self.sock` still set).

Mirrors the source: no socket ⇒ raise `ConnectionError` untouched;
`socket.error` during I/O ⇒ close socket, re-raise; a received reply is
`.strip()`ped and `.splitlines()`ed — no lines is only logged (normal
return), a last line ≠ `"OK"` raises `RuntimeError`, which the trailing
`except Exception` clause catches to close the socket before re-raising. -/
def send_command (sock : Bool) (io : RecvBehavior) : Except SendError Unit × Bool :=
  if !sock then (Except.error SendError.notConnected, sock)
  else
    match io with
    | RecvBehavior.ioFail => (Except.error SendError.socketError, false)
    | RecvBehavior.reply raw =>
      let response := pyStrip raw
      let response_lines := pySplitlines response
      if response_lines = [] then (Except.ok (), sock)
      else if response_lines.getLastD [] ≠ "OK".toList then
        (Except.error SendError.commandRejected, false)
      else (Except.ok (), sock)

/-! ## `src/rds.py` — `SmartGenConnectionManager._manage_connection`

The supervisor loop as a transition system: its state is whether a socket is
established plus the current backoff, starting at `⟨false, 1⟩`.  Events are
the outcome of a connect attempt (only taken when no socket is present;
with a socket the loop just idles) and the socket being dropped by
`send_command`'s error paths. -/

/-- State of the supervisor: `connected` = `self.sock is not None`,
`backoff` = the current exponential-backoff delay in seconds. -/
structure MgrState where
  connected : Bool
  backoff : Nat
deriving DecidableEq

/-- Events driving `_manage_connection`: a connect attempt succeeds or
fails, or the socket is torn down externally (`send_command`). -/
inductive MgrEvent where
  | attemptOk : MgrEvent
  | attemptFail : MgrEvent
  | sockDropped : MgrEvent
deriving DecidableEq

/-- One iteration of the `_manage_connection` loop body: with a socket the
attempt branch is skipped (idle `sleep(1)`); otherwise a successful connect
stores the socket and resets the backoff to 1, and a failure sleeps for the
current backoff and then doubles it, capped at 60. -/
def manageStep (s : MgrState) (e : MgrEvent) : MgrState :=
  match e with
  | MgrEvent.attemptOk => if s.connected then s else { connected := true, backoff := 1 }
  | MgrEvent.attemptFail =>
      if s.connected then s else { s with backoff := min (s.backoff * 2) 60 }
  | MgrEvent.sockDropped => { s with connected := false }

/-- The seconds slept in one loop iteration: the current backoff after a
failed attempt, the idle `sleep(1)` otherwise. -/
def sleepDuration (s : MgrState) (e : MgrEvent) : Nat :=
  match e with
  | MgrEvent.attemptFail => if s.connected then 1 else s.backoff
  | _ => 1

/-- `backoff = 1` before the loop starts, with no socket. -/
def initialMgrState : MgrState := { connected := false, backoff := 1 }

/-- The states the supervisor loop can reach. -/
inductive MgrReachable : MgrState → Prop where
  | init : MgrReachable initialMgrState
  | step : ∀ {s : MgrState}, MgrReachable s → ∀ e : MgrEvent, MgrReachable (manageStep s e)

/-! ## Lemmas about the Python string primitives -/

theorem splitChar_ne_nil (c : Char) (s : Str) : splitChar c s ≠ [] := by
  induction s with
  | nil => simp [splitChar]
  | cons x xs ih =>
    obtain ⟨h, t, hs⟩ := List.exists_cons_of_ne_nil ih
    by_cases hx : x = c <;> simp [splitChar, hs, hx]

theorem splitChar_of_forall_ne {c : Char} {s : Str} (h : ∀ x ∈ s, x ≠ c) :
    splitChar c s = [s] := by
  induction s with
  | nil => rfl
  | cons x xs ih =>
    have hx : x ≠ c := h x (by simp)
    have hxs : splitChar c xs = [xs] := ih (fun y hy => h y (by simp [hy]))
    simp [splitChar, hxs, hx]

theorem splitChar_append (c : Char) (a b : Str) :
    splitChar c (a ++ c :: b) = splitChar c a ++ splitChar c b := by
  induction a with
  | nil =>
    obtain ⟨h, t, hb⟩ := List.exists_cons_of_ne_nil (splitChar_ne_nil c b)
    simp [splitChar, hb]
  | cons x a' ih =>
    obtain ⟨h, t, ha'⟩ := List.exists_cons_of_ne_nil (splitChar_ne_nil c a')
    by_cases hx : x = c <;>
      simp [splitChar, ih, ha', hx, List.cons_append]

theorem splitChar_append_singleton (c : Char) (a b : Str) :
    splitChar c (a ++ [c] ++ b) = splitChar c a ++ splitChar c b := by
  rw [List.append_assoc, List.singleton_append, splitChar_append]

theorem digitChar_isDigit : ∀ k : Fin 10, (Nat.digitChar k.val).isDigit = true := by
  decide

theorem digitChar_toNat : ∀ k : Fin 10, (Nat.digitChar k.val).toNat = 48 + k.val := by
  decide

theorem natReprAux_congr :
    ∀ n f1 f2 : Nat, n < f1 → n < f2 → natReprAux f1 n = natReprAux f2 n := by
  intro n
  induction n using Nat.strong_induction_on with
  | _ n ih =>
    intro f1 f2 h1 h2
    match f1, f2 with
    | g1 + 1, g2 + 1 =>
      show natReprAux (g1 + 1) n = natReprAux (g2 + 1) n
      unfold natReprAux
      by_cases hn : n < 10
      · simp [hn]
      · rw [if_neg hn, if_neg hn,
          ih (n / 10) (by omega) g1 g2 (by omega) (by omega)]

theorem natRepr_unfold (n : Nat) :
    natRepr n =
      if n < 10 then [Nat.digitChar n]
      else natRepr (n / 10) ++ [Nat.digitChar (n % 10)] := by
  show natReprAux (n + 1) n = _
  unfold natReprAux
  by_cases hn : n < 10
  · simp [hn]
  · rw [if_neg hn, if_neg hn]
    rw [natReprAux_congr (n / 10) n (n / 10 + 1) (by omega) (by omega)]
    rfl

theorem natRepr_ne_nil (n : Nat) : natRepr n ≠ [] := by
  rw [natRepr_unfold]
  split <;> simp

theorem mem_natRepr_isDigit (n : Nat) : ∀ c ∈ natRepr n, c.isDigit = true := by
  induction n using Nat.strong_induction_on with
  | _ n ih =>
    rw [natRepr_unfold]
    split
    · next h =>
      intro c hc
      simp only [List.mem_singleton] at hc
      subst hc
      exact digitChar_isDigit ⟨n, h⟩
    · next h =>
      intro c hc
      rcases List.mem_append.mp hc with hmem | hmem
      · exact ih (n / 10) (by omega) c hmem
      · simp only [List.mem_singleton] at hmem
        subst hmem
        exact digitChar_isDigit ⟨n % 10, Nat.mod_lt _ (by norm_num)⟩

theorem isDigit_ne_comma {c : Char} (h : c.isDigit = true) : c ≠ ',' := by
  intro he
  subst he
  simp [Char.isDigit] at h

theorem isDigit_ne_minus {c : Char} (h : c.isDigit = true) : c ≠ '-' := by
  intro he
  subst he
  simp [Char.isDigit] at h

theorem mem_natRepr_ne_comma (n : Nat) : ∀ c ∈ natRepr n, c ≠ ',' :=
  fun c hc => isDigit_ne_comma (mem_natRepr_isDigit n c hc)

theorem mem_intRepr_ne_comma (i : Int) : ∀ c ∈ intRepr i, c ≠ ',' := by
  intro c hc
  unfold intRepr at hc
  split at hc
  · rcases List.mem_cons.mp hc with h | h
    · subst h; decide
    · exact mem_natRepr_ne_comma _ c h
  · exact mem_natRepr_ne_comma _ c hc

theorem splitChar_natRepr (n : Nat) : splitChar ',' (natRepr n) = [natRepr n] :=
  splitChar_of_forall_ne (mem_natRepr_ne_comma n)

theorem splitChar_intRepr (i : Int) : splitChar ',' (intRepr i) = [intRepr i] :=
  splitChar_of_forall_ne (mem_intRepr_ne_comma i)

theorem parseNatDigits_append_digit (a : Str) (c : Char) :
    parseNatDigits (a ++ [c]) = 10 * parseNatDigits a + (c.toNat - 48) := by
  unfold parseNatDigits
  rw [List.foldl_append]
  rfl

theorem parseNatDigits_natRepr (n : Nat) : parseNatDigits (natRepr n) = n := by
  induction n using Nat.strong_induction_on with
  | _ n ih =>
    rw [natRepr_unfold]
    split
    · next h =>
      show parseNatDigits ([] ++ [Nat.digitChar n]) = n
      rw [parseNatDigits_append_digit]
      have := digitChar_toNat ⟨n, h⟩
      simp [parseNatDigits, this]
    · next h =>
      rw [parseNatDigits_append_digit, ih (n / 10) (by omega)]
      have h10 : n % 10 < 10 := Nat.mod_lt _ (by norm_num)
      have := digitChar_toNat ⟨n % 10, h10⟩
      simp only [this]
      omega

theorem natRepr_head_isDigit (n : Nat) : (natRepr n).headD ' ' ≠ '-' := by
  obtain ⟨c, cs, h⟩ := List.exists_cons_of_ne_nil (natRepr_ne_nil n)
  have hd : c.isDigit = true := mem_natRepr_isDigit n c (by rw [h]; simp)
  rw [h]
  simpa using isDigit_ne_minus hd

theorem pyInt_natRepr (n : Nat) : pyInt (natRepr n) = (n : Int) := by
  unfold pyInt
  rw [if_neg (natRepr_head_isDigit n), parseNatDigits_natRepr]

/-! ## Lemmas about `pyFind` -/

theorem pyFind_eq_ofNat_or_neg_one (s sub : Str) :
    (∃ i : Nat, pyFind s sub = Int.ofNat i) ∨ pyFind s sub = -1 := by
  unfold pyFind
  cases h : (List.range (s.length + 1)).find? (fun i => sub.isPrefixOf (s.drop i)) with
  | none => right; rfl
  | some i => left; exact ⟨i, rfl⟩

theorem pyFind_spec {s sub : Str} {i : Nat} (h : pyFind s sub = Int.ofNat i) :
    sub <+: s.drop i ∧ i ≤ s.length := by
  unfold pyFind at h
  cases hf : (List.range (s.length + 1)).find? (fun i => sub.isPrefixOf (s.drop i)) with
  | none =>
    rw [hf] at h
    have h' : (-1 : Int) = (i : Int) := h
    omega
  | some j =>
    rw [hf] at h
    have hij : j = i := by
      simpa [Int.ofNat_inj] using h
    subst hij
    constructor
    · have := List.find?_some hf
      simp only [decide_eq_true_eq] at this
      exact List.isPrefixOf_iff_prefix.mp this
    · have := List.mem_of_find?_eq_some hf
      have := List.mem_range.mp this
      omega

theorem pyFind_occurrence_bound {s sub : Str} {i : Nat} (h : pyFind s sub = Int.ofNat i) :
    i + sub.length ≤ s.length := by
  obtain ⟨hpre, hle⟩ := pyFind_spec h
  have := hpre.length_le
  rw [List.length_drop] at this
  omega

theorem pyFind_of_prefix {s sub : Str} (h : sub <+: s) : pyFind s sub = 0 := by
  have hp : sub.isPrefixOf (s.drop 0) = true := by
    simpa [List.drop_zero] using List.isPrefixOf_iff_prefix.mpr h
  unfold pyFind
  rw [List.range_succ_eq_map]
  have hfind : List.find? (fun i => sub.isPrefixOf (s.drop i))
      (0 :: List.map Nat.succ (List.range s.length)) = some 0 :=
    List.find?_cons_of_pos _ hp
  rw [hfind]
  rfl

/-! ## Structure of the RT+ payload parts -/

/-- The two-digit field `"00"` of the blank group. -/
def dd00 : Str := ['0', '0']

/-- The running-bit field `"1"`. -/
def one1 : Str := ['1']

theorem ARTIST_TAG_ne_comma : ∀ x ∈ ARTIST_TAG, x ≠ ',' := by decide

theorem TITLE_TAG_ne_comma : ∀ x ∈ TITLE_TAG, x ≠ ',' := by decide

theorem intRepr_ofNat (s : Nat) : intRepr (Int.ofNat s) = natRepr s := by
  unfold intRepr
  rw [if_neg]
  · rfl
  · exact Int.not_lt.mpr (Int.ofNat_nonneg s)

theorem splitChar_mkPart (tg : Str) (s : Int) (l : Nat) (htg : ∀ x ∈ tg, x ≠ ',') :
    splitChar ',' (mkPart tg s l) = [tg, intRepr s, natRepr l] := by
  unfold mkPart
  rw [splitChar_append_singleton, splitChar_append_singleton,
    splitChar_of_forall_ne htg, splitChar_intRepr, splitChar_natRepr]
  rfl

theorem splitChar_blankPart : splitChar ',' blankPart = [dd00, dd00, dd00] := by decide

theorem splitChar_pyJoin (p : Str) (ps : List Str) :
    splitChar ',' (pyJoin [','] (p :: ps)) =
      splitChar ',' p ++ (ps.map (splitChar ',')).flatten := by
  induction ps generalizing p with
  | nil => simp [pyJoin]
  | cons q qs ih =>
    show splitChar ',' (p ++ [','] ++ pyJoin [','] (q :: qs)) = _
    rw [splitChar_append_singleton, ih q]
    simp

theorem clampLast_pair (P tg : Str) (s : Int) (l : Nat) (htg : ∀ x ∈ tg, x ≠ ',') :
    clampLast [P, mkPart tg s l] = [P, mkPart tg s (min l 31)] := by
  have hsplit := splitChar_mkPart tg s l htg
  have hlast : [P, mkPart tg s l].getLastD [] = mkPart tg s l := rfl
  unfold clampLast
  rw [hlast, hsplit]
  have hidx : [tg, intRepr s, natRepr l].getD 2 [] = natRepr l := rfl
  rw [hidx, pyInt_natRepr]
  by_cases hl : (31 : Int) < (l : Int)
  · rw [if_pos hl]
    have hmin : min l 31 = 31 := by omega
    have h31 : natRepr 31 = "31".toList := rfl
    rw [hmin]
    simp [pyJoin, mkPart, h31]
  · rw [if_neg hl]
    have hmin : min l 31 = l := by omega
    rw [hmin]

theorem clampLast_blank (P : Str) : clampLast [P, blankPart] = [P, blankPart] := by
  have hlast : [P, blankPart].getLastD [] = blankPart := rfl
  unfold clampLast
  rw [hlast, splitChar_blankPart]
  have hidx : [dd00, dd00, dd00].getD 2 [] = dd00 := rfl
  rw [hidx]
  rw [if_neg (by decide)]

theorem artistPart_shape (ft a : Str) :
    artistPart ft a = [] ∨
    ∃ s l : Nat, artistPart ft a = [mkPart ARTIST_TAG (Int.ofNat s) l] ∧
      s + l ≤ ft.length ∧ l ≤ 63 := by
  unfold artistPart
  by_cases ha : a ≠ noArtistStr
  · rw [if_pos ha]
    rcases pyFind_eq_ofNat_or_neg_one ft a with ⟨i, hi⟩ | hneg
    · have hne : pyFind ft a ≠ -1 := by
        rw [hi]; intro hcon
        have h' : (-1 : Int) = (i : Int) := hcon.symm
        omega
      rw [hi] at hne ⊢
      rw [if_pos hne]
      have hocc := pyFind_occurrence_bound hi
      right
      by_cases hlen : a.length > 63
      · refine ⟨i, 63, ?_, by omega, by omega⟩
        rw [if_pos hlen]
        show [mkPart ARTIST_TAG (Int.ofNat i) (a.take 63).length] = _
        have hlen63 : (a.take 63).length = 63 := by
          rw [List.length_take]; omega
        rw [hlen63]
      · refine ⟨i, a.length, ?_, by omega, by omega⟩
        rw [if_neg hlen]
    · rw [hneg]
      rw [if_neg (by simp)]
      left; rfl
  · rw [if_neg ha]
    left; rfl

theorem titlePart_shape (ft t : Str) :
    titlePart ft t = [] ∨
    ∃ s l : Nat, titlePart ft t = [mkPart TITLE_TAG (Int.ofNat s) l] ∧
      s + l ≤ ft.length ∧ l ≤ 63 := by
  unfold titlePart
  by_cases ht : t ≠ noTitleStr
  · rw [if_pos ht]
    rcases pyFind_eq_ofNat_or_neg_one ft t with ⟨i, hi⟩ | hneg
    · have hne : pyFind ft t ≠ -1 := by
        rw [hi]; intro hcon
        have h' : (-1 : Int) = (i : Int) := hcon.symm
        omega
      rw [hi] at hne ⊢
      rw [if_pos hne]
      have hocc := pyFind_occurrence_bound hi
      right
      by_cases hlen : t.length > 63
      · refine ⟨i, 63, ?_, by omega, by omega⟩
        rw [if_pos hlen]
        show [mkPart TITLE_TAG (Int.ofNat i) (t.take 63).length] = _
        have hlen63 : (t.take 63).length = 63 := by
          rw [List.length_take]; omega
        rw [hlen63]
      · refine ⟨i, t.length, ?_, by omega, by omega⟩
        rw [if_neg hlen]
    · rw [hneg]
      rw [if_neg (by simp)]
      left; rfl
  · rw [if_neg ht]
    left; rfl

theorem splitChar_final (P1 P2 : Str) (tmo : Int) :
    splitChar ',' (pyJoin [','] [P1, P2, natRepr 1, intRepr tmo]) =
      splitChar ',' P1 ++ splitChar ',' P2 ++ [one1, intRepr tmo] := by
  rw [splitChar_pyJoin]
  have h1 : splitChar ',' (natRepr 1) = [one1] := rfl
  rw [List.map_cons, List.map_cons, List.map_cons, List.map_nil, h1, splitChar_intRepr]
  simp

theorem build_eq_of_pp_single (ft a t : Str) (d : Int) (P : Str)
    (hpp : payloadParts ft (orDefault a noArtistStr) (orDefault t noTitleStr) = [P]) :
    build_rt_plus_tag_command ft a t d =
      pyJoin [','] (clampLast [P, blankPart] ++ [natRepr 1, intRepr (Int.fdiv d 60)]) := by
  unfold build_rt_plus_tag_command
  simp [hpp]

theorem noclamp_eq_of_pp_single (ft a t : Str) (d : Int) (P : Str)
    (hpp : payloadParts ft (orDefault a noArtistStr) (orDefault t noTitleStr) = [P]) :
    build_rt_plus_noclamp ft a t d =
      pyJoin [','] [P, blankPart, natRepr 1, intRepr (Int.fdiv d 60)] := by
  unfold build_rt_plus_noclamp
  simp [hpp]

theorem build_eq_of_pp_pair (ft a t : Str) (d : Int) (P1 P2 : Str)
    (hpp : payloadParts ft (orDefault a noArtistStr) (orDefault t noTitleStr) = [P1, P2]) :
    build_rt_plus_tag_command ft a t d =
      pyJoin [','] (clampLast [P1, P2] ++ [natRepr 1, intRepr (Int.fdiv d 60)]) := by
  unfold build_rt_plus_tag_command
  simp [hpp]

theorem noclamp_eq_of_pp_pair (ft a t : Str) (d : Int) (P1 P2 : Str)
    (hpp : payloadParts ft (orDefault a noArtistStr) (orDefault t noTitleStr) = [P1, P2]) :
    build_rt_plus_noclamp ft a t d =
      pyJoin [','] [P1, P2, natRepr 1, intRepr (Int.fdiv d 60)] := by
  unfold build_rt_plus_noclamp
  simp [hpp]

theorem build_eq_of_pp_nil (ft a t : Str) (d : Int)
    (hpp : payloadParts ft (orDefault a noArtistStr) (orDefault t noTitleStr) = []) :
    build_rt_plus_tag_command ft a t d = [] := by
  unfold build_rt_plus_tag_command
  simp [hpp]

theorem noclamp_eq_of_pp_nil (ft a t : Str) (d : Int)
    (hpp : payloadParts ft (orDefault a noArtistStr) (orDefault t noTitleStr) = []) :
    build_rt_plus_noclamp ft a t d = [] := by
  unfold build_rt_plus_noclamp
  simp [hpp]

/-- Full structure of the payload: either nothing was tagged and the result
is `""`, or exactly one field group was produced (padded with the blank
group), or both were (with the second group's length clamped at 31). -/
theorem build_fields_spec (ft a t : Str) (d : Int) :
    (build_rt_plus_tag_command ft a t d = [] ∧ build_rt_plus_noclamp ft a t d = [] ∧
      payloadParts ft (orDefault a noArtistStr) (orDefault t noTitleStr) = []) ∨
    (∃ tg s l,
      ((tg = ARTIST_TAG ∧
          artistPart ft (orDefault a noArtistStr) = [mkPart tg (Int.ofNat s) l] ∧
          titlePart ft (orDefault t noTitleStr) = []) ∨
       (tg = TITLE_TAG ∧
          artistPart ft (orDefault a noArtistStr) = [] ∧
          titlePart ft (orDefault t noTitleStr) = [mkPart tg (Int.ofNat s) l])) ∧
      s + l ≤ ft.length ∧ l ≤ 63 ∧
      splitChar ',' (build_rt_plus_tag_command ft a t d) =
        [tg, natRepr s, natRepr l, dd00, dd00, dd00, one1, intRepr (Int.fdiv d 60)] ∧
      splitChar ',' (build_rt_plus_noclamp ft a t d) =
        [tg, natRepr s, natRepr l, dd00, dd00, dd00, one1, intRepr (Int.fdiv d 60)]) ∨
    (∃ s1 l1 s2 l2,
      artistPart ft (orDefault a noArtistStr) = [mkPart ARTIST_TAG (Int.ofNat s1) l1] ∧
      titlePart ft (orDefault t noTitleStr) = [mkPart TITLE_TAG (Int.ofNat s2) l2] ∧
      s1 + l1 ≤ ft.length ∧ l1 ≤ 63 ∧ s2 + l2 ≤ ft.length ∧ l2 ≤ 63 ∧
      splitChar ',' (build_rt_plus_tag_command ft a t d) =
        [ARTIST_TAG, natRepr s1, natRepr l1, TITLE_TAG, natRepr s2, natRepr (min l2 31),
          one1, intRepr (Int.fdiv d 60)] ∧
      splitChar ',' (build_rt_plus_noclamp ft a t d) =
        [ARTIST_TAG, natRepr s1, natRepr l1, TITLE_TAG, natRepr s2, natRepr l2,
          one1, intRepr (Int.fdiv d 60)]) := by
  rcases artistPart_shape ft (orDefault a noArtistStr) with hA | ⟨s1, l1, hA, hb1, hl1⟩ <;>
    rcases titlePart_shape ft (orDefault t noTitleStr) with hT | ⟨s2, l2, hT, hb2, hl2⟩
  · -- neither artist nor title tagged
    have hpp : payloadParts ft (orDefault a noArtistStr) (orDefault t noTitleStr) = [] := by
      rw [payloadParts, hA, hT]; rfl
    exact Or.inl ⟨build_eq_of_pp_nil ft a t d hpp, noclamp_eq_of_pp_nil ft a t d hpp, hpp⟩
  · -- only the title tagged
    have hpp : payloadParts ft (orDefault a noArtistStr) (orDefault t noTitleStr) =
        [mkPart TITLE_TAG (Int.ofNat s2) l2] := by
      rw [payloadParts, hA, hT]; rfl
    refine Or.inr (Or.inl ⟨TITLE_TAG, s2, l2, Or.inr ⟨rfl, hA, hT⟩, hb2, hl2, ?_, ?_⟩)
    · rw [build_eq_of_pp_single ft a t d _ hpp, clampLast_blank]
      have : ([mkPart TITLE_TAG (Int.ofNat s2) l2, blankPart] ++
          [natRepr 1, intRepr (Int.fdiv d 60)]) =
          [mkPart TITLE_TAG (Int.ofNat s2) l2, blankPart, natRepr 1,
            intRepr (Int.fdiv d 60)] := rfl
      rw [this, splitChar_final,
        splitChar_mkPart _ _ _ TITLE_TAG_ne_comma, splitChar_blankPart, intRepr_ofNat]
      rfl
    · rw [noclamp_eq_of_pp_single ft a t d _ hpp, splitChar_final,
        splitChar_mkPart _ _ _ TITLE_TAG_ne_comma, splitChar_blankPart, intRepr_ofNat]
      rfl
  · -- only the artist tagged
    have hpp : payloadParts ft (orDefault a noArtistStr) (orDefault t noTitleStr) =
        [mkPart ARTIST_TAG (Int.ofNat s1) l1] := by
      rw [payloadParts, hA, hT]; rfl
    refine Or.inr (Or.inl ⟨ARTIST_TAG, s1, l1, Or.inl ⟨rfl, hA, hT⟩, hb1, hl1, ?_, ?_⟩)
    · rw [build_eq_of_pp_single ft a t d _ hpp, clampLast_blank]
      have : ([mkPart ARTIST_TAG (Int.ofNat s1) l1, blankPart] ++
          [natRepr 1, intRepr (Int.fdiv d 60)]) =
          [mkPart ARTIST_TAG (Int.ofNat s1) l1, blankPart, natRepr 1,
            intRepr (Int.fdiv d 60)] := rfl
      rw [this, splitChar_final,
        splitChar_mkPart _ _ _ ARTIST_TAG_ne_comma, splitChar_blankPart, intRepr_ofNat]
      rfl
    · rw [noclamp_eq_of_pp_single ft a t d _ hpp, splitChar_final,
        splitChar_mkPart _ _ _ ARTIST_TAG_ne_comma, splitChar_blankPart, intRepr_ofNat]
      rfl
  · -- both tagged
    have hpp : payloadParts ft (orDefault a noArtistStr) (orDefault t noTitleStr) =
        [mkPart ARTIST_TAG (Int.ofNat s1) l1, mkPart TITLE_TAG (Int.ofNat s2) l2] := by
      rw [payloadParts, hA, hT]; rfl
    refine Or.inr (Or.inr ⟨s1, l1, s2, l2, hA, hT, hb1, hl1, hb2, hl2, ?_, ?_⟩)
    · rw [build_eq_of_pp_pair ft a t d _ _ hpp,
        clampLast_pair _ _ _ _ TITLE_TAG_ne_comma]
      have : ([mkPart ARTIST_TAG (Int.ofNat s1) l1,
          mkPart TITLE_TAG (Int.ofNat s2) (min l2 31)] ++
          [natRepr 1, intRepr (Int.fdiv d 60)]) =
          [mkPart ARTIST_TAG (Int.ofNat s1) l1,
            mkPart TITLE_TAG (Int.ofNat s2) (min l2 31), natRepr 1,
            intRepr (Int.fdiv d 60)] := rfl
      rw [this, splitChar_final, splitChar_mkPart _ _ _ ARTIST_TAG_ne_comma,
        splitChar_mkPart _ _ _ TITLE_TAG_ne_comma, intRepr_ofNat, intRepr_ofNat]
      rfl
    · rw [noclamp_eq_of_pp_pair ft a t d _ _ hpp, splitChar_final,
        splitChar_mkPart _ _ _ ARTIST_TAG_ne_comma,
        splitChar_mkPart _ _ _ TITLE_TAG_ne_comma, intRepr_ofNat, intRepr_ofNat]
      rfl

/-! ## The claims -/

/-- C1: for every RT+ payload `build_rt_plus_tag_command` produces, the
length field of the second field group (the third-to-last comma-separated
value, index 5 of 8) is never emitted above 31: where the unclamped value
would exceed 31 it is replaced by `31`, and every other field — in
particular the second group's start offset (index 4) and the first group's
length (index 2) — is exactly what the unclamped build would emit. -/
theorem C1_second_group_length_clamped (ft a t : Str) (d : Int)
    (h : build_rt_plus_tag_command ft a t d ≠ []) :
    (splitChar ',' (build_rt_plus_tag_command ft a t d)).length = 8 ∧
    pyInt ((splitChar ',' (build_rt_plus_tag_command ft a t d)).getD 5 []) ≤ 31 ∧
    ((splitChar ',' (build_rt_plus_tag_command ft a t d)).getD 5 [] =
      if 31 < pyInt ((splitChar ',' (build_rt_plus_noclamp ft a t d)).getD 5 [])
      then natRepr 31
      else (splitChar ',' (build_rt_plus_noclamp ft a t d)).getD 5 []) ∧
    ∀ i : Nat, i ≠ 5 →
      (splitChar ',' (build_rt_plus_tag_command ft a t d)).getD i [] =
        (splitChar ',' (build_rt_plus_noclamp ft a t d)).getD i [] := by
  rcases build_fields_spec ft a t d with ⟨hb, _, _⟩ | ⟨tg, s, l, _, _, hl, hf, hg⟩ |
      ⟨s1, l1, s2, l2, _, _, _, _, _, hl2, hf, hg⟩
  · exact absurd hb h
  · rw [hf, hg]
    have hdd : pyInt dd00 = 0 := by decide
    refine ⟨rfl, ?_, ?_, ?_⟩
    · show pyInt dd00 ≤ 31
      rw [hdd]; omega
    · show dd00 = if 31 < pyInt dd00 then natRepr 31 else dd00
      rw [hdd]
      norm_num
    · intro i _
      rfl
  · rw [hf, hg]
    refine ⟨rfl, ?_, ?_, ?_⟩
    · show pyInt (natRepr (min l2 31)) ≤ 31
      rw [pyInt_natRepr]
      omega
    · show natRepr (min l2 31) = if 31 < pyInt (natRepr l2) then natRepr 31 else natRepr l2
      rw [pyInt_natRepr]
      by_cases hc : (31 : Int) < (l2 : Int)
      · rw [if_pos hc]
        have : min l2 31 = 31 := by omega
        rw [this]
      · rw [if_neg hc]
        have : min l2 31 = l2 := by omega
        rw [this]
    · intro i hi
      have hcase : i = 0 ∨ i = 1 ∨ i = 2 ∨ i = 3 ∨ i = 4 ∨ i = 6 ∨ i = 7 ∨ 8 ≤ i := by
        omega
      rcases hcase with h' | h' | h' | h' | h' | h' | h' | h' <;>
        first
          | (subst h'; rfl)
          | (rw [List.getD_eq_default _ _ (by simp; omega),
              List.getD_eq_default _ _ (by simp; omega)])

/-- C1 witness: a 33-character title in a 38-character display text is
clamped to 31 in the second group while the first group and the second
group's start offset keep their true values. -/
theorem C1_witness :
    (splitChar ',' (build_rt_plus_tag_command ("A - ".toList ++ List.replicate 33 'B')
      "A".toList (List.replicate 33 'B') 120)).length = 8 ∧
    pyInt ((splitChar ',' (build_rt_plus_tag_command ("A - ".toList ++ List.replicate 33 'B')
      "A".toList (List.replicate 33 'B') 120)).getD 5 []) ≤ 31 :=
  ⟨(C1_second_group_length_clamped ("A - ".toList ++ List.replicate 33 'B')
      "A".toList (List.replicate 33 'B') 120 (by decide)).1,
   (C1_second_group_length_clamped ("A - ".toList ++ List.replicate 33 'B')
      "A".toList (List.replicate 33 'B') 120 (by decide)).2.1⟩

/-- C6: whenever exactly one tag was produced a synthetic `"00,00,00"`
second group is appended, so every non-empty payload has exactly eight
comma-separated fields: two field groups, then the running bit `"1"`
(always 1), then the timeout `str(duration // 60)`. -/
theorem C6_blank_padding_eight_fields (ft a t : Str) (d : Int) :
    (build_rt_plus_tag_command ft a t d ≠ [] →
      (splitChar ',' (build_rt_plus_tag_command ft a t d)).length = 8 ∧
      (splitChar ',' (build_rt_plus_tag_command ft a t d)).getD 6 [] = one1 ∧
      (splitChar ',' (build_rt_plus_tag_command ft a t d)).getD 7 [] =
        intRepr (Int.fdiv d 60)) ∧
    ((payloadParts ft (orDefault a noArtistStr) (orDefault t noTitleStr)).length = 1 →
      build_rt_plus_tag_command ft a t d ≠ [] ∧
      (splitChar ',' (build_rt_plus_tag_command ft a t d)).getD 3 [] = dd00 ∧
      (splitChar ',' (build_rt_plus_tag_command ft a t d)).getD 4 [] = dd00 ∧
      (splitChar ',' (build_rt_plus_tag_command ft a t d)).getD 5 [] = dd00) := by
  rcases build_fields_spec ft a t d with ⟨hb, _, hpp⟩ | ⟨tg, s, l, hparts, _, _, hf, _⟩ |
      ⟨s1, l1, s2, l2, hA, hT, _, _, _, _, hf, _⟩
  · constructor
    · intro h; exact absurd hb h
    · intro hlen
      rw [hpp] at hlen
      simp at hlen
  · have hne : build_rt_plus_tag_command ft a t d ≠ [] := by
      intro h0
      rw [h0] at hf
      simp [splitChar] at hf
    constructor
    · intro _
      rw [hf]
      exact ⟨rfl, rfl, rfl⟩
    · intro _
      rw [hf]
      exact ⟨hne, rfl, rfl, rfl⟩
  · have hne : build_rt_plus_tag_command ft a t d ≠ [] := by
      intro h0
      rw [h0] at hf
      simp [splitChar] at hf
    constructor
    · intro _
      rw [hf]
      exact ⟨rfl, rfl, rfl⟩
    · intro hlen
      rw [payloadParts, hA, hT] at hlen
      simp at hlen

/-- C6 witness: with only the artist tagged, the payload is padded with
`"00,00,00"` and carries eight fields ending in `1` and the timeout. -/
theorem C6_witness :
    ((splitChar ',' (build_rt_plus_tag_command "AB - CD".toList "AB".toList [] 90)).length = 8 ∧
      (splitChar ',' (build_rt_plus_tag_command "AB - CD".toList "AB".toList [] 90)).getD 6 [] =
        one1 ∧
      (splitChar ',' (build_rt_plus_tag_command "AB - CD".toList "AB".toList [] 90)).getD 7 [] =
        intRepr (Int.fdiv 90 60)) ∧
    (splitChar ',' (build_rt_plus_tag_command "AB - CD".toList "AB".toList [] 90)).getD 3 [] =
      dd00 :=
  ⟨(C6_blank_padding_eight_fields "AB - CD".toList "AB".toList [] 90).1 (by decide),
   (((C6_blank_padding_eight_fields "AB - CD".toList "AB".toList [] 90).2 (by decide)).2.1)⟩

/-- C7: the timeout field is `duration // 60` with no clamp — at duration
15360 s (256 minutes) the emitted payload ends in `256`, outside the 0–255
range the protocol (and the function's own docstring) allows. -/
theorem C7_timeout_overflows_255 :
    build_rt_plus_tag_command "AB - CD".toList "AB".toList "CD".toList 15360 =
      "04,0,2,01,5,2,1,256".toList ∧
    255 < pyInt ((splitChar ','
      (build_rt_plus_tag_command "AB - CD".toList "AB".toList "CD".toList 15360)).getD 7 []) := by
  constructor
  · decide
  · decide

theorem artistPart_sentinel (ft : Str) : artistPart ft noArtistStr = [] := by
  unfold artistPart
  simp

theorem titlePart_sentinel (ft : Str) : titlePart ft noTitleStr = [] := by
  unfold titlePart
  simp

/-- C10: passing exactly the sentinel `"NO ARTIST"` as the artist (resp.
`"NO TITLE"` as the title) is indistinguishable from passing a missing
(empty) value: the build output is identical, and no ARTIST (resp. TITLE)
field group is ever emitted, even when the sentinel text occurs in the
display text. -/
theorem C10_sentinel_values_never_tagged (ft a t : Str) (d : Int) :
    (build_rt_plus_tag_command ft noArtistStr t d = build_rt_plus_tag_command ft [] t d ∧
      (splitChar ',' (build_rt_plus_tag_command ft noArtistStr t d)).getD 0 [] ≠ ARTIST_TAG ∧
      (splitChar ',' (build_rt_plus_tag_command ft noArtistStr t d)).getD 3 [] ≠ ARTIST_TAG) ∧
    (build_rt_plus_tag_command ft a noTitleStr d = build_rt_plus_tag_command ft a [] d ∧
      (splitChar ',' (build_rt_plus_tag_command ft a noTitleStr d)).getD 0 [] ≠ TITLE_TAG ∧
      (splitChar ',' (build_rt_plus_tag_command ft a noTitleStr d)).getD 3 [] ≠ TITLE_TAG) := by
  constructor
  · refine ⟨rfl, ?_⟩
    rcases build_fields_spec ft noArtistStr t d with ⟨hb, _, _⟩ |
        ⟨tg, s, l, hparts, _, _, hf, _⟩ | ⟨s1, l1, s2, l2, hA, _, _, _, _, _, _, _⟩
    · rw [hb]
      refine ⟨?_, ?_⟩
      · show ([] : Str) ≠ ARTIST_TAG
        decide
      · show ([] : Str) ≠ ARTIST_TAG
        decide
    · rcases hparts with ⟨htg, hA, _⟩ | ⟨htg, _, _⟩
      · rw [show orDefault noArtistStr noArtistStr = noArtistStr from rfl,
          artistPart_sentinel] at hA
        exact absurd hA.symm (List.cons_ne_nil _ _)
      · subst htg
        rw [hf]
        refine ⟨?_, ?_⟩
        · show TITLE_TAG ≠ ARTIST_TAG
          decide
        · show dd00 ≠ ARTIST_TAG
          decide
    · rw [show orDefault noArtistStr noArtistStr = noArtistStr from rfl,
        artistPart_sentinel] at hA
      exact absurd hA.symm (List.cons_ne_nil _ _)
  · refine ⟨rfl, ?_⟩
    rcases build_fields_spec ft a noTitleStr d with ⟨hb, _, _⟩ |
        ⟨tg, s, l, hparts, _, _, hf, _⟩ | ⟨s1, l1, s2, l2, _, hT, _, _, _, _, _, _⟩
    · rw [hb]
      refine ⟨?_, ?_⟩
      · show ([] : Str) ≠ TITLE_TAG
        decide
      · show ([] : Str) ≠ TITLE_TAG
        decide
    · rcases hparts with ⟨htg, _, _⟩ | ⟨htg, _, hT⟩
      · subst htg
        rw [hf]
        refine ⟨?_, ?_⟩
        · show ARTIST_TAG ≠ TITLE_TAG
          decide
        · show dd00 ≠ TITLE_TAG
          decide
      · rw [show orDefault noTitleStr noTitleStr = noTitleStr from rfl,
          titlePart_sentinel] at hT
        exact absurd hT.symm (List.cons_ne_nil _ _)
    · rw [show orDefault noTitleStr noTitleStr = noTitleStr from rfl,
        titlePart_sentinel] at hT
      exact absurd hT.symm (List.cons_ne_nil _ _)

theorem pyUpper_join (a t : Str) :
    pyUpper (a ++ textSep ++ t) = pyUpper a ++ textSep ++ pyUpper t := by
  simp only [pyUpper, List.map_append]
  rw [show List.map Char.toUpper textSep = textSep from rfl]

theorem take64_join (A T : Str) :
    (A.take 64 ++ (textSep ++ T.take 64)).take 64 = (A ++ (textSep ++ T)).take 64 := by
  by_cases hA : 64 ≤ A.length
  · have hAlen : 64 ≤ (A.take 64).length := by
      rw [List.length_take]; omega
    rw [List.take_append_of_le_length hAlen, List.take_append_of_le_length hA,
      List.take_take, Nat.min_self]
  · have hAle : A.length ≤ 64 := by omega
    rw [List.take_of_length_le hAle]
    rw [List.take_append_eq_append_take, List.take_append_eq_append_take]
    rw [List.take_append_eq_append_take, List.take_append_eq_append_take]
    rw [List.take_take]
    have h3 : textSep.length = 3 := rfl
    have h4 : min (64 - A.length - textSep.length) 64 = 64 - A.length - textSep.length := by
      rw [h3]; omega
    rw [h4]

/-- C2: for artist/title whose joined `"artist - title"` string is at most
64 characters, the display text is the exact uppercased join with the
truncation flag unset; for a longer join it is exactly the first 64
characters of the uppercased join, with the flag set. -/
theorem C2_display_text_truncation (a t : Str) :
    ((a ++ textSep ++ t).length ≤ 64 →
      buildDisplayText a t = (pyUpper (a ++ textSep ++ t), false)) ∧
    (64 < (a ++ textSep ++ t).length →
      buildDisplayText a t = ((pyUpper (a ++ textSep ++ t)).take 64, true)) := by
  have h3 : textSep.length = 3 := rfl
  have hlen : (a ++ textSep ++ t).length = a.length + 3 + t.length := by
    rw [List.length_append, List.length_append, h3]
  have hatake : (pyUpper a).length = a.length := List.length_map a Char.toUpper
  have httake : (pyUpper t).length = t.length := List.length_map t Char.toUpper
  constructor
  · intro h
    rw [hlen] at h
    have ha : (pyUpper a).length ≤ 64 := by omega
    have ht : (pyUpper t).length ≤ 64 := by omega
    unfold buildDisplayText sanitize_text
    dsimp only
    rw [List.take_of_length_le ha, List.take_of_length_le ht]
    have hflag : ¬ (pyUpper a ++ textSep ++ pyUpper t).length > 64 := by
      simp only [List.length_append, h3, hatake, httake]
      omega
    rw [if_neg hflag, pyUpper_join]
    simp only [Prod.mk.injEq]
    exact ⟨trivial, decide_eq_false hflag⟩
  · intro h
    rw [hlen] at h
    unfold buildDisplayText sanitize_text
    dsimp only
    have hflag : ((pyUpper a).take 64 ++ textSep ++ (pyUpper t).take 64).length > 64 := by
      simp only [List.length_append, h3, List.length_take, hatake, httake]
      omega
    rw [if_pos hflag, pyUpper_join]
    have hval : ((pyUpper a).take 64 ++ textSep ++ (pyUpper t).take 64).take 64 =
        (pyUpper a ++ textSep ++ pyUpper t).take 64 := by
      rw [List.append_assoc, List.append_assoc]
      exact take64_join (pyUpper a) (pyUpper t)
    rw [hval]
    simp only [Prod.mk.injEq]
    exact ⟨trivial, decide_eq_true hflag⟩

/-- C2 witness: `"Ab" / "Cd"` joins to 7 ≤ 64 characters and is returned
uppercased and unflagged; the ≤ 64 hypothesis is discharged by `decide`. -/
theorem C2_witness :
    buildDisplayText "Ab".toList "Cd".toList =
      (pyUpper ("Ab".toList ++ textSep ++ "Cd".toList), false) :=
  (C2_display_text_truncation "Ab".toList "Cd".toList).1 (by decide)

theorem sanitize_text_length_le (a : Str) : (sanitize_text a).length ≤ 64 := by
  unfold sanitize_text
  dsimp only
  rw [List.length_take]
  omega

theorem sanitize_text_ne_nil {a : Str} (h : a ≠ []) : sanitize_text a ≠ [] := by
  unfold sanitize_text pyUpper
  dsimp only
  cases a with
  | nil => exact absurd rfl h
  | cons x xs => simp

theorem sanitize_prefix_display (a t : Str) :
    sanitize_text a <+: (buildDisplayText a t).1 := by
  have hle : (sanitize_text a).length ≤ 64 := sanitize_text_length_le a
  unfold buildDisplayText
  dsimp only
  by_cases hl : (sanitize_text a ++ textSep ++ sanitize_text t).length > 64
  · rw [if_pos hl]
    rw [List.append_assoc, List.take_append_eq_append_take,
      List.take_of_length_le hle]
    exact List.prefix_append _ _
  · rw [if_neg hl]
    rw [List.append_assoc]
    exact List.prefix_append _ _

/-- C5 (amended): for every handled event — non-empty artist whose
sanitized form is not the literal sentinel `"NO ARTIST"` — whose sanitized
title does not occur in the truncated display text, the RT+ payload is
exactly the ARTIST field group followed by the synthetic blank group, no
TITLE group is emitted, and the (start, length) pair of the artist group
indexes a range lying inside the display text. -/
theorem C5_title_cut_off_artist_only (a t : Str) (d : Int)
    (ha0 : a ≠ [])
    (hsent : sanitize_text a ≠ noArtistStr)
    (hcut : pyFind (buildDisplayText a t).1 (sanitize_text t) = -1) :
    onMessageRtPayload a t d ≠ [] ∧
    (splitChar ',' (onMessageRtPayload a t d)).length = 8 ∧
    (splitChar ',' (onMessageRtPayload a t d)).getD 0 [] = ARTIST_TAG ∧
    (splitChar ',' (onMessageRtPayload a t d)).getD 3 [] = dd00 ∧
    (splitChar ',' (onMessageRtPayload a t d)).getD 4 [] = dd00 ∧
    (splitChar ',' (onMessageRtPayload a t d)).getD 5 [] = dd00 ∧
    pyInt ((splitChar ',' (onMessageRtPayload a t d)).getD 1 []) +
        pyInt ((splitChar ',' (onMessageRtPayload a t d)).getD 2 []) ≤
      ((((buildDisplayText a t).1).length : Int)) ∧
    (splitChar ',' (onMessageRtPayload a t d)).getD 0 [] ≠ TITLE_TAG := by
  have hpre : sanitize_text a <+: (buildDisplayText a t).1 := sanitize_prefix_display a t
  have hfind : pyFind (buildDisplayText a t).1 (sanitize_text a) = 0 := pyFind_of_prefix hpre
  have hsane : sanitize_text a ≠ [] := sanitize_text_ne_nil ha0
  have hc1 : pyFind (buildDisplayText a t).1 (sanitize_text a) ≠ -1 := by
    rw [hfind]; decide
  have hc2 : ¬ pyFind (buildDisplayText a t).1 (sanitize_text t) ≠ -1 := by
    rw [hcut]; simp
  have hred : onMessageRtPayload a t d =
      build_rt_plus_tag_command (buildDisplayText a t).1 (sanitize_text a) [] d := by
    unfold onMessageRtPayload
    dsimp only
    rw [if_pos hc1, if_neg hc2]
  -- the artist block fires at offset 0
  have hsaOrd : orDefault (sanitize_text a) noArtistStr = sanitize_text a := if_neg hsane
  have htOrd : orDefault ([] : Str) noTitleStr = noTitleStr := rfl
  have hAp : artistPart (buildDisplayText a t).1 (sanitize_text a) =
      [mkPart ARTIST_TAG 0
        ((if (sanitize_text a).length > 63
          then (sanitize_text a).take 63 else sanitize_text a)).length] := by
    unfold artistPart
    rw [if_pos hsent]
    dsimp only
    rw [hfind, if_pos (by decide : (0 : Int) ≠ -1)]
  set l := ((if (sanitize_text a).length > 63
      then (sanitize_text a).take 63 else sanitize_text a)).length with hldef
  have hlle : l ≤ (sanitize_text a).length := by
    rw [hldef]
    by_cases hc : (sanitize_text a).length > 63
    · rw [if_pos hc, List.length_take]; omega
    · rw [if_neg hc]
  have hpp : payloadParts (buildDisplayText a t).1
      (orDefault (sanitize_text a) noArtistStr) (orDefault ([] : Str) noTitleStr) =
      [mkPart ARTIST_TAG 0 l] := by
    rw [hsaOrd, htOrd, payloadParts, hAp, titlePart_sentinel]
    rfl
  have hfields : splitChar ',' (onMessageRtPayload a t d) =
      [ARTIST_TAG, intRepr 0, natRepr l, dd00, dd00, dd00, one1,
        intRepr (Int.fdiv d 60)] := by
    rw [hred, build_eq_of_pp_single _ _ _ _ _ hpp, clampLast_blank]
    rw [show ([mkPart ARTIST_TAG 0 l, blankPart] ++
        [natRepr 1, intRepr (Int.fdiv d 60)]) =
      [mkPart ARTIST_TAG 0 l, blankPart, natRepr 1, intRepr (Int.fdiv d 60)] from rfl]
    rw [splitChar_final, splitChar_mkPart _ _ _ ARTIST_TAG_ne_comma, splitChar_blankPart]
    rfl
  have hne : onMessageRtPayload a t d ≠ [] := by
    intro h0
    rw [h0] at hfields
    simp [splitChar] at hfields
  refine ⟨hne, ?_, ?_, ?_, ?_, ?_, ?_, ?_⟩
  · rw [hfields]; rfl
  · rw [hfields]; rfl
  · rw [hfields]; rfl
  · rw [hfields]; rfl
  · rw [hfields]; rfl
  · rw [hfields]
    show pyInt (intRepr 0) + pyInt (natRepr l) ≤ (((buildDisplayText a t).1).length : Int)
    rw [show intRepr (0 : Int) = natRepr 0 from rfl, pyInt_natRepr, pyInt_natRepr]
    have hlen := hpre.length_le
    have : l ≤ ((buildDisplayText a t).1).length := le_trans hlle hlen
    omega
  · rw [hfields]
    show ARTIST_TAG ≠ TITLE_TAG
    decide

/-- C5 counterexample to the claim as stated: for the event with artist
`"No Artist"` (whose sanitized form is exactly the sentinel `"NO ARTIST"`)
and a 53-character title, the title does not occur in the truncated display
text — the claim's premise holds — yet the payload is empty: it does not
include an ARTIST field group at all. -/
theorem C5_counterexample_sentinel_artist :
    pyFind (buildDisplayText "No Artist".toList (List.replicate 53 'x')).1
        (sanitize_text (List.replicate 53 'x')) = -1 ∧
    onMessageRtPayload "No Artist".toList (List.replicate 53 'x') 0 = [] := by
  constructor
  · decide
  · decide

/-- C5 witness: artist `"Ab"` with a 60-character title that truncation
cuts off — the payload is the ARTIST group plus the blank group. -/
theorem C5_witness :
    onMessageRtPayload "Ab".toList (List.replicate 60 'y') 0 ≠ [] ∧
    (splitChar ',' (onMessageRtPayload "Ab".toList (List.replicate 60 'y') 0)).getD 0 [] =
      ARTIST_TAG :=
  ⟨(C5_title_cut_off_artist_only "Ab".toList (List.replicate 60 'y') 0 (by decide)
      (by decide) (by decide)).1,
   (C5_title_cut_off_artist_only "Ab".toList (List.replicate 60 'y') 0 (by decide)
      (by decide) (by decide)).2.2.1⟩

/-- With a live socket and a reply delivered, `send_command` returns
normally iff the stripped reply has no lines or its last line is `"OK"`;
otherwise it raises `RuntimeError` and (via the `except Exception` clause)
drops the socket. -/
theorem send_command_reply_spec (raw : Str) :
    send_command true (RecvBehavior.reply raw) =
      (if pySplitlines (pyStrip raw) = [] ∨
          (pySplitlines (pyStrip raw)).getLastD [] = "OK".toList
        then (Except.ok (), true)
        else (Except.error SendError.commandRejected, false)) := by
  unfold send_command
  rw [show (!true) = false from rfl, if_neg (by simp : ¬ false = true)]
  dsimp only
  by_cases h1 : pySplitlines (pyStrip raw) = []
  · rw [if_pos h1, if_pos (Or.inl h1)]
  · rw [if_neg h1]
    by_cases h2 : (pySplitlines (pyStrip raw)).getLastD [] = "OK".toList
    · rw [if_neg (fun hk => hk h2), if_pos (Or.inr h2)]
    · rw [if_pos h2, if_neg (not_or.mpr ⟨h1, h2⟩)]

/-- C3 counterexample: with a live socket, an empty reply makes
`send_command` return normally (the code only logs a warning) — it does not
fail, and no distinguishable "no response" error exists in the code. -/
theorem C3_counterexample_empty_reply_succeeds :
    send_command true (RecvBehavior.reply []) = (Except.ok (), true) := rfl

/-- C3 (amended): with a live socket and a reply delivered, `send_command`
succeeds iff the stripped reply has no lines at all or its last line is
exactly `"OK"`; only a non-empty reply whose last line differs from `"OK"`
raises.  An empty reply is treated as success (merely logged), not as a
distinguishable `NoResponse` failure. -/
theorem C3_success_iff_no_lines_or_last_ok (raw : Str) :
    send_command true (RecvBehavior.reply raw) =
      (if pySplitlines (pyStrip raw) = [] ∨
          (pySplitlines (pyStrip raw)).getLastD [] = "OK".toList
        then (Except.ok (), true)
        else (Except.error SendError.commandRejected, false)) :=
  send_command_reply_spec raw

/-- C4 counterexample: a received reply `"NO"` (device rejection) also
tears the socket down — `send_command` leaves the link `false`, not
established, because the generic `except Exception` clause closes the
socket before re-raising the `RuntimeError`. -/
theorem C4_counterexample_rejection_tears_down :
    send_command true (RecvBehavior.reply "NO".toList) =
      (Except.error SendError.commandRejected, false) := rfl

/-- C4 (amended): from an established link, the socket-teardown side effect
occurs on a transport error and on a device rejection alike: `send_command`
ends with no socket exactly when it raises; only a normal return (last line
`"OK"`, or no response at all) leaves the socket established. -/
theorem C4_teardown_on_error (io : RecvBehavior) :
    send_command true RecvBehavior.ioFail = (Except.error SendError.socketError, false) ∧
    ((send_command true io).1 = Except.ok () → (send_command true io).2 = true) ∧
    ((send_command true io).1 ≠ Except.ok () → (send_command true io).2 = false) := by
  refine ⟨rfl, ?_, ?_⟩
  · intro h
    cases io with
    | ioFail => exact Except.noConfusion h
    | reply raw =>
      rw [send_command_reply_spec raw] at h ⊢
      by_cases hc : pySplitlines (pyStrip raw) = [] ∨
          (pySplitlines (pyStrip raw)).getLastD [] = "OK".toList
      · rw [if_pos hc]
      · rw [if_neg hc] at h
        exact Except.noConfusion h
  · intro h
    cases io with
    | ioFail => rfl
    | reply raw =>
      rw [send_command_reply_spec raw] at h ⊢
      by_cases hc : pySplitlines (pyStrip raw) = [] ∨
          (pySplitlines (pyStrip raw)).getLastD [] = "OK".toList
      · rw [if_pos hc] at h
        exact absurd rfl h
      · rw [if_neg hc]

/-- C4 witness: the teardown-iff-error characterization applied to the
rejected reply `"NO"` and to a transport failure. -/
theorem C4_witness :
    (send_command true (RecvBehavior.reply "NO".toList)).2 = false ∧
    send_command true RecvBehavior.ioFail = (Except.error SendError.socketError, false) :=
  ⟨(C4_teardown_on_error (RecvBehavior.reply "NO".toList)).2.2
      (fun hcon => Except.noConfusion hcon),
   (C4_teardown_on_error RecvBehavior.ioFail).1⟩

/-- C9: with no socket established, `send_command` raises `ConnectionError`
(`NotConnected`), leaves the link state unchanged (still no socket), and
performs no I/O: its result does not depend on what the transport would
have done. -/
theorem C9_not_connected_no_io (io : RecvBehavior) :
    send_command false io = (Except.error SendError.notConnected, false) ∧
    ∀ io2 : RecvBehavior, send_command false io = send_command false io2 := by
  exact ⟨rfl, fun io2 => rfl⟩

/-- C8: in every reachable state of the supervisor loop the backoff delay
lies within 1–60 seconds; a failed connect attempt (taken only with no
socket) sleeps for the current delay and then doubles it capped at 60, and
a successful connect resets it to 1. -/
theorem C8_backoff_invariant (s : MgrState) (h : MgrReachable s) :
    1 ≤ s.backoff ∧ s.backoff ≤ 60 ∧
    (s.connected = false →
      manageStep s MgrEvent.attemptOk = { connected := true, backoff := 1 } ∧
      (manageStep s MgrEvent.attemptFail).backoff = min (s.backoff * 2) 60 ∧
      sleepDuration s MgrEvent.attemptFail = s.backoff) := by
  have heqns : ∀ s' : MgrState, s'.connected = false →
      manageStep s' MgrEvent.attemptOk = { connected := true, backoff := 1 } ∧
      (manageStep s' MgrEvent.attemptFail).backoff = min (s'.backoff * 2) 60 ∧
      sleepDuration s' MgrEvent.attemptFail = s'.backoff := by
    intro s' hc
    refine ⟨?_, ?_, ?_⟩
    · unfold manageStep
      rw [hc]
      rfl
    · unfold manageStep
      rw [hc]
      rfl
    · unfold sleepDuration
      rw [hc]
      rfl
  have hinv : 1 ≤ s.backoff ∧ s.backoff ≤ 60 := by
    induction h with
    | init => exact ⟨by decide, by decide⟩
    | step hs e ih =>
      rename_i s'
      cases e with
      | attemptOk =>
        unfold manageStep
        by_cases hc : s'.connected <;> simp [hc] <;> omega
      | attemptFail =>
        unfold manageStep
        by_cases hc : s'.connected <;> simp [hc] <;> omega
      | sockDropped =>
        unfold manageStep
        exact ih
  exact ⟨hinv.1, hinv.2, heqns s⟩

/-- C8 witness: the invariant and the step equations at the initial state
(reachable by construction). -/
theorem C8_witness :
    1 ≤ initialMgrState.backoff ∧ initialMgrState.backoff ≤ 60 ∧
    (initialMgrState.connected = false →
      manageStep initialMgrState MgrEvent.attemptOk = { connected := true, backoff := 1 } ∧
      (manageStep initialMgrState MgrEvent.attemptFail).backoff =
        min (initialMgrState.backoff * 2) 60 ∧
      sleepDuration initialMgrState MgrEvent.attemptFail = initialMgrState.backoff) :=
  C8_backoff_invariant initialMgrState MgrReachable.init

end WborRds
